import Mathlib

/- Verification of the iterative-optimization solver framework
   (algorithms/descent_method.py and algorithms/constrained_descent_method.py).

   Shallow embedding conventions:
   * torch 1-D tensors become lists of rationals (exact arithmetic) or
     functions of type Fin n → ℚ; 2-D tensors become lists of rows or
     Mathlib matrices over ℚ;
   * external collaborators (the autodiff oracle, the proximal operator, the
     dense linear solver, the RNG draw, the wall clock) are function
     parameters of the embedded routines;
   * Python exceptions (assertion failures, KeyError, AttributeError) become
     Except values; unbounded while loops take an explicit fuel argument and
     return none / an error when the fuel is exhausted;
   * norm comparisons are embedded by the equivalent exact comparison of
     squared norms (torch computes a floating-point square root; the
     comparison with a scalar bound is what the algorithms consume). -/

namespace Spec2Proof

/-! ### List vector utilities (torch 1-D tensor operations) -/

/-- Inner product of two vectors, torch `a@b`. -/
def dotL (a b : List ℚ) : ℚ := (List.zipWith (· * ·) a b).sum

/-- Elementwise sum, torch `a + b`. -/
def vaddL (a b : List ℚ) : List ℚ := List.zipWith (· + ·) a b

/-- Elementwise difference, torch `a - b`. -/
def vsubL (a b : List ℚ) : List ℚ := List.zipWith (· - ·) a b

/-- Scalar multiple, torch `c * a`. -/
def smulL (c : ℚ) (a : List ℚ) : List ℚ := a.map (c * ·)

/-- Matrix-vector product where the matrix is a list of rows, torch `M @ v`. -/
def matVecL (M : List (List ℚ)) (v : List ℚ) : List ℚ := M.map (fun row => dotL row v)

/-! ### Base solver: parameter validation, initialization, run loop
    (descent_method.py, class optimization_solver) -/

/-- Embedding of `optimization_solver.__check_params__` (descent_method.py
    lines 52-61): the assertion `len(self.params_key) == len(params)` together
    with the membership loop over `self.params_key`.  `keys` is the declared
    `params_key` list of the variant, `ps` is the key set of the supplied
    parameter dictionary (dictionary keys, hence distinct).  The result is
    true exactly when neither assertion fires. -/
def checkParams (keys ps : List String) : Bool :=
  (keys.length == ps.length) && keys.all (fun k => ps.contains k)

/-- Declared key list of GradientDescent. -/
def paramsKeyGD : List String := ["lr", "backward"]

/-- Declared key list of SubspaceGD. -/
def paramsKeySubspaceGD : List String := ["lr", "reduced_dim", "dim", "mode", "backward"]

/-- Declared key list of AcceleratedGD. -/
def paramsKeyAcceleratedGD : List String := ["lr", "backward"]

/-- Declared key list of NewtonMethod. -/
def paramsKeyNewton : List String := ["alpha", "beta", "backward"]

/-- Declared key list of SubspaceNewton. -/
def paramsKeySubspaceNewton : List String := ["dim", "reduced_dim", "mode", "backward"]

/-- Declared key list of LimitedMemoryNewton. -/
def paramsKeyLimitedMemoryNewton : List String :=
  ["matrix_size", "threshold_eigenvalue", "alpha", "beta", "backward"]

/-- Declared key list of BacktrackingProximalGD. -/
def paramsKeyBacktrackingProximalGD : List String := ["eps", "beta", "backward"]

/-- Declared key list of BacktrackingAcceleratedProximalGD. -/
def paramsKeyBacktrackingAcceleratedProximalGD : List String :=
  ["restart", "beta", "eps", "backward"]

/-- Declared key list of GradientProjectionMethod. -/
def paramsKeyGradientProjection : List String := ["eps", "delta", "alpha", "beta"]

/-- Declared key list of DynamicBarrierGD. -/
def paramsKeyDynamicBarrier : List String :=
  ["lr", "alpha", "beta", "barrier_func_type", "sub_problem_eps", "inner_iteration"]

/-- Declared key list of PrimalDualInteriorPointMethod. -/
def paramsKeyPrimalDual : List String := ["mu", "eps", "eps_feas"]

/-- All declared variant key lists of the repository. -/
def allVariantParamsKeys : List (List String) :=
  [paramsKeyGD, paramsKeySubspaceGD, paramsKeyAcceleratedGD, paramsKeyNewton,
   paramsKeySubspaceNewton, paramsKeyLimitedMemoryNewton, paramsKeyBacktrackingProximalGD,
   paramsKeyBacktrackingAcceleratedProximalGD, paramsKeyGradientProjection,
   paramsKeyDynamicBarrier, paramsKeyPrimalDual]

/-- Mutable solver state owned by an `optimization_solver` instance during a
    run: the iterate `xk`, the two metric buffers of `save_values`
    (`func_values` and `time`), and the termination flag `finish`.  The point
    type is abstract since the run loop never inspects it. -/
structure SolverState (α : Type) where
  xk : α
  funcValues : List ℚ
  times : List ℚ
  finish : Bool

/-- Embedding of `optimization_solver.__run_init__` (descent_method.py lines
    43-50): copy the initial point into `xk`, allocate both metric buffers
    with `iteration+1` zeros, clear `finish`, and evaluate the objective once
    at the initial point into index 0 of `func_values`. -/
def runInit {α : Type} (f : α → ℚ) (x0 : α) (iteration : ℕ) : SolverState α :=
  { xk := x0
    funcValues := (List.replicate (iteration + 1) 0).set 0 (f x0)
    times := List.replicate (iteration + 1) 0
    finish := false }

/-- The Python subexpression `0 & log_interval` (bitwise and of zero with
    any two's-complement integer is zero; `zeroAndLog_eq_land` below checks
    this embedding against the bitwise operator itself). -/
def zeroAndLog (logI : ℤ) : ℤ := 0

/-- Embedding of the logging guard on line 84 of descent_method.py,
    `(i+1)%log_interval == 0 & log_interval != -1`, with Python semantics:
    `&` binds tighter than the comparisons, so the expression is the chained
    comparison `(i+1)%log_interval == (0 & log_interval) != -1`, and Python
    integer `%` is floored modulo (Int.fmod). -/
def logCond (i : ℕ) (logI : ℤ) : Bool :=
  (Int.fmod ((i : ℤ) + 1) logI == zeroAndLog logI) && (zeroAndLog logI != -1)

/-- The iteration loop of `optimization_solver.run` (descent_method.py lines
    72-86).  `i` is the current iteration index, `rem` the remaining
    iterations of `range(iteration)`.  Each pass: if `finish` is set, break;
    otherwise delegate to the variant step `iterPer`, then record elapsed
    time (from the external `clock`) and the objective value at slots `i+1`,
    and log/flush when the (buggy) guard `logCond` holds.  The returned list
    collects the iteration numbers at which a log/flush happened. -/
def runLoop {α : Type} (iterPer : SolverState α → SolverState α) (f : α → ℚ)
    (clock : ℕ → ℚ) (logI : ℤ) : ℕ → ℕ → SolverState α → List ℕ → SolverState α × List ℕ
  | _, 0, s, logs => (s, logs)
  | i, rem + 1, s, logs =>
    if s.finish then (s, logs)
    else
      let s1 := iterPer s
      let s2 := { s1 with funcValues := s1.funcValues.set (i + 1) (f s1.xk)
                          times := s1.times.set (i + 1) (clock i) }
      let logs2 := if logCond i logI then logs ++ [i + 1] else logs
      runLoop iterPer f clock logI (i + 1) rem s2 logs2

/-- Embedding of `optimization_solver.run` (descent_method.py lines 66-87):
    `__run_init__` first, then `__check_params__` (whose assertion failure is
    the error case, carrying the state already mutated by the
    initialization), then the iteration loop.  The backward-mode assignment
    on line 69 only selects the oracle mode and is not modelled. -/
def runSolver {α : Type} (keys : List String) (iterPer : SolverState α → SolverState α)
    (f : α → ℚ) (x0 : α) (iteration : ℕ) (ps : List String) (clock : ℕ → ℚ)
    (logI : ℤ) : Except (SolverState α) (SolverState α × List ℕ) :=
  let s0 := runInit f x0 iteration
  if checkParams keys ps then .ok (runLoop iterPer f clock logI 0 iteration s0 [])
  else .error s0

/-- The iteration numbers at which `run` reported progress and flushed
    metrics (empty when the run failed validation). -/
def loggedIters {α : Type} (keys ps : List String) (iterPer : SolverState α → SolverState α)
    (f : α → ℚ) (x0 : α) (iteration : ℕ) (clock : ℕ → ℚ) (logI : ℤ) : List ℕ :=
  match runSolver keys iterPer f x0 iteration ps clock logI with
  | .ok (_, logs) => logs
  | .error _ => []

/-! ### Backtracking proximal gradient descent
    (descent_method.py, classes BacktrackingProximalGD and
    BacktrackingAcceleratedProximalGD) -/

/-- The while-loop guard of `BacktrackingProximalGD.backtracking_with_prox`
    (descent_method.py line 363):
    `t*f(prox_x) > t*loss - t*grad@(x - prox_x) + 1/2*((x-prox_x)@(x-prox_x))`. -/
def btCond (f : List ℚ → ℚ) (x grad : List ℚ) (loss t : ℚ) (proxX : List ℚ) : Bool :=
  decide (t * f proxX >
    t * loss - t * dotL grad (vsubL x proxX) + 1 / 2 * dotL (vsubL x proxX) (vsubL x proxX))

/-- The while loop of `BacktrackingProximalGD.backtracking_with_prox`
    (descent_method.py lines 363-369).  Each pass with a true guard shrinks
    `t` by `beta`, decrements `max_iter` and recomputes the proximal
    candidate; the loop breaks (keeping the new candidate) once `max_iter`
    drops below 0.  The fuel argument counts the remaining decrements before
    that break, so an initial `max_iter = m ≥ 0` admits at most `m + 1`
    shrink steps. -/
def btLoop (f : List ℚ → ℚ) (prox : List ℚ → ℚ → List ℚ) (x grad : List ℚ)
    (beta loss : ℚ) : ℕ → ℚ → List ℚ → List ℚ × ℚ
  | 0, t, proxX =>
    if btCond f x grad loss t proxX then
      (prox (vsubL x (smulL (t * beta) grad)) (t * beta), t * beta)
    else (proxX, t)
  | fuel + 1, t, proxX =>
    if btCond f x grad loss t proxX then
      btLoop f prox x grad beta loss fuel (t * beta)
        (prox (vsubL x (smulL (t * beta) grad)) (t * beta))
    else (proxX, t)

/-- Embedding of `BacktrackingProximalGD.backtracking_with_prox`
    (descent_method.py lines 358-370): start from `t = 1`, resolve the
    optional loss value to `f x`, compute the first proximal candidate
    `prox(x - t*grad, t)` and enter the shrink loop. -/
def backtracking_with_prox (f : List ℚ → ℚ) (prox : List ℚ → ℚ → List ℚ)
    (x grad : List ℚ) (beta : ℚ) (max_iter : ℕ) (loss : Option ℚ) : List ℚ × ℚ :=
  let lossv := loss.getD (f x)
  btLoop f prox x grad beta lossv max_iter 1 (prox (vsubL x (smulL 1 grad)) 1)

/-- The while-loop guard of
    `BacktrackingAcceleratedProximalGD.backtracking_with_prox`
    (descent_method.py line 427):
    `tk*f(prox_x) > tk*loss_v + tk*grad_v@(prox_x - v) + 1/2*((prox_x-v)@(prox_x-v))`. -/
def accCond (f : List ℚ → ℚ) (v grad_v : List ℚ) (loss_v tk : ℚ) (proxX : List ℚ) : Bool :=
  decide (tk * f proxX >
    tk * loss_v + tk * dotL grad_v (vsubL proxX v)
      + 1 / 2 * dotL (vsubL proxX v) (vsubL proxX v))

/-- The while loop of the accelerated
    `backtracking_with_prox` (descent_method.py lines 427-429).  The source
    loop has no decrement of `max_iter` and no break, so it is a genuine
    unbounded while loop; the fuel argument bounds how many passes we
    observe, and `none` means the loop was still running after that many
    passes. -/
def accBtLoop (f : List ℚ → ℚ) (prox : List ℚ → ℚ → List ℚ) (v grad_v : List ℚ)
    (beta loss_v : ℚ) : ℕ → ℚ → List ℚ → Option (List ℚ × ℚ)
  | 0, tk, proxX =>
    if accCond f v grad_v loss_v tk proxX then none
    else some (proxX, tk)
  | fuel + 1, tk, proxX =>
    if accCond f v grad_v loss_v tk proxX then
      accBtLoop f prox v grad_v beta loss_v fuel (tk * beta)
        (prox (vsubL v (smulL (tk * beta) grad_v)) (tk * beta))
    else some (proxX, tk)

/-- Embedding of `BacktrackingAcceleratedProximalGD.backtracking_with_prox`
    (descent_method.py lines 421-430).  The parameters `x` and `max_iter`
    are unused in the source body (the loop reads only `v`, `grad_v`,
    `beta`, `loss_v` and the carried-over scale `self.tk`); they are kept to
    mirror the signature.  `max_iter` has type ℚ because the caller on line
    411 passes the tensor `loss_v` into this positional slot.  The result
    pair is `(prox_x, self.tk)` and the returned scale is also the new value
    of the instance attribute `tk`. -/
def accBacktracking (f : List ℚ → ℚ) (prox : List ℚ → ℚ → List ℚ)
    (x v grad_v : List ℚ) (beta : ℚ) (max_iter : ℚ) (loss_v : Option ℚ)
    (tk : ℚ) (fuel : ℕ) : Option (List ℚ × ℚ) :=
  let lv := loss_v.getD (f v)
  accBtLoop f prox v grad_v beta lv fuel tk (prox (vsubL v (smulL tk grad_v)) tk)

/-- Embedding of `optimization_solver.check_norm` (descent_method.py lines
    63-64), `torch.linalg.norm(d) <= eps`, as the equivalent exact
    comparison of squares. -/
def checkNormL (d : List ℚ) (c : ℚ) : Bool := decide (0 ≤ c ∧ dotL d d ≤ c ^ 2)

/-- Mutable state of a `BacktrackingAcceleratedProximalGD` instance: the
    restart counter `k`, current and previous iterates `xk`, `xk1`, the
    carried-over backtracking scale `tk` and the termination flag. -/
structure APGDState where
  k : ℕ
  xk : List ℚ
  xk1 : List ℚ
  tk : ℚ
  finish : Bool

/-- Embedding of `BacktrackingAcceleratedProximalGD.__iter_per__`
    (descent_method.py lines 403-419): increment `k`, extrapolate
    `vk = xk + (k-2)/(k+1)*(xk - xk1)`, evaluate the oracle at `vk`, run the
    backtracking search (the source call on line 411 passes `loss_v` into
    the unused `max_iter` slot, so the loss parameter arrives as None and is
    recomputed as `f vk` inside), test the termination norm, shift the
    iterates, and optionally restart `k` when the objective increased.
    `none` propagates a non-terminating backtracking search. -/
def apgdIterPer (f : List ℚ → ℚ) (gradf : List ℚ → List ℚ) (prox : List ℚ → ℚ → List ℚ)
    (restart : Bool) (beta eps : ℚ) (fuel : ℕ) (s : APGDState) : Option APGDState :=
  let k := s.k + 1
  let vk := vaddL s.xk (smulL (((k : ℚ) - 2) / ((k : ℚ) + 1)) (vsubL s.xk s.xk1))
  let grad_v := gradf vk
  let loss_v := f vk
  match accBacktracking f prox s.xk vk grad_v beta loss_v none s.tk fuel with
  | none => none
  | some (prox_x, t) =>
    let finish := if checkNormL (vsubL prox_x vk) (t * eps) then true else s.finish
    let xk1h := s.xk
    let xkh := prox_x
    let kh := if restart && decide (f xkh > f xk1h) then 0 else k
    some ⟨kh, xkh, xk1h, t, finish⟩

/-- The objective used in the counterexamples: the 1-norm `f(x) = sum |x_i|`
    (a legitimate driver-supplied objective). -/
def fAbs : List ℚ → ℚ := fun v => (v.map (fun a => |a|)).sum

/-- The proximal operator of `g = 0`: the identity map. -/
def proxId : List ℚ → ℚ → List ℚ := fun y _ => y

/-- A trivial objective used in witnesses. -/
def fZero : List ℚ → ℚ := fun _ => 0

/-- The gradient oracle of the trivial objective. -/
def gradZero : List ℚ → List ℚ := fun _ => [0]

/-! ### Gradient Projection Method
    (constrained_descent_method.py, class GradientProjectionMethod) -/

/-- Embedding of `GradientProjectionMethod.__direction__`
    (constrained_descent_method.py lines 97-103).  `Gk` is the matrix of
    active-constraint gradients (one row per active constraint, `m` rows),
    `solveLin` is the external dense solver `torch.linalg.solve`.  The
    source tests `len(Gk) == 0`, i.e. `m = 0`, and runs the multiplier
    solve `lk = -solve(Gk@Gk.T, Gk@grad)` with direction
    `-grad - Gk.T@lk` in THAT branch, returning the plain `-grad` in the
    other branch.  The second component is the new value of `self.lk`
    (`none` when the attribute is left untouched). -/
def gpmDirection {m n : ℕ}
    (solveLin : Matrix (Fin m) (Fin m) ℚ → (Fin m → ℚ) → (Fin m → ℚ))
    (grad : Fin n → ℚ) (Gk : Matrix (Fin m) (Fin n) ℚ) :
    (Fin n → ℚ) × Option (Fin m → ℚ) :=
  if m = 0 then
    let GG := Gk * Gk.transpose
    let lk := -(solveLin GG (Gk.mulVec grad))
    (-grad - Gk.transpose.mulVec lk, some lk)
  else (-grad, none)

/-- A concrete stand-in for the external dense solver, used to evaluate the
    direction routine at concrete inputs (the non-empty branch never calls
    it). -/
def solveTrivial : Matrix (Fin 1) (Fin 1) ℚ → (Fin 1 → ℚ) → (Fin 1 → ℚ) := fun _ v => v

/-! ### Accelerated Gradient Descent (descent_method.py, class AcceleratedGD) -/

/-- Mutable state of an `AcceleratedGD` instance: iterate `xk`, auxiliary
    point `yk` and momentum coefficient `lambda_k`. -/
structure AGDState (n : ℕ) where
  xk : Fin n → ℚ
  yk : Fin n → ℚ
  lambdak : ℚ

/-- Embedding of `AcceleratedGD.__iter_per__` (descent_method.py lines
    181-192).  `sq` is the external scalar power oracle `a ** 0.5`, `gradf`
    the gradient oracle:
    `lambda_{k+1} = (1 + sqrt(1 + 4*lambda_k^2))/2`,
    `gamma_k = (1 - lambda_k)/lambda_{k+1}`,
    `y_{k+1} = xk - lr*grad`,
    `xk := (1 - gamma_k)*y_{k+1} + gamma_k*yk`, `yk := y_{k+1}`. -/
def agdIterPer {n : ℕ} (sq : ℚ → ℚ) (gradf : (Fin n → ℚ) → Fin n → ℚ) (lr : ℚ)
    (s : AGDState n) : AGDState n :=
  let lambda_k1 := (1 + sq (1 + 4 * s.lambdak ^ 2)) / 2
  let gamma_k := (1 - s.lambdak) / lambda_k1
  let grad := gradf s.xk
  let yk1 := s.xk - lr • grad
  { xk := (1 - gamma_k) • yk1 + gamma_k • s.yk, yk := yk1, lambdak := lambda_k1 }

/-- One iteration of Accelerated Gradient Descent with the momentum
    coefficient `lambda_k` held fixed at `lam` (the hypothetical
    modification of the claim: the coefficient used inside the step is `lam`
    and it stays `lam` afterwards). -/
def agdStepFixed {n : ℕ} (sq : ℚ → ℚ) (gradf : (Fin n → ℚ) → Fin n → ℚ) (lr lam : ℚ)
    (s : AGDState n) : AGDState n :=
  let s1 := agdIterPer sq gradf lr { s with lambdak := lam }
  { s1 with lambdak := lam }

/-- Embedding of the `GradientDescent` update rule
    (descent_method.py lines 116-127): direction `-grad`, step size the
    configured learning rate, update `xk + lr*d = xk - lr*grad`. -/
def gdStep {n : ℕ} (gradf : (Fin n → ℚ) → Fin n → ℚ) (lr : ℚ) (x : Fin n → ℚ) :
    Fin n → ℚ := x - lr • gradf x

/-- A concrete power oracle: the identity, which agrees with the true square
    root on the only argument reached when `lambda_k = 0` (namely
    `1 + 4*0^2 = 1`, whose square root is 1). -/
def sqOne : ℚ → ℚ := fun q => q

/-- The gradient oracle of `f(x) = (1/2)*x@x`: the identity. -/
def gradIdent {n : ℕ} : (Fin n → ℚ) → Fin n → ℚ := fun x => x

/-! ### Subspace Gradient Descent (descent_method.py, class SubspaceGD) -/

/-- Embedding of `SubspaceGD.generate_matrix` (descent_method.py lines
    160-167).  `randn` is the external RNG draw `torch.randn(reduced_dim,
    dim)` of shape `(r, d)`; mode "random" scales it by `1/dim`, mode
    "identity" returns the Python value `None` (embedded as `none`), and any
    other mode raises `ValueError("No matrix mode")`. -/
def generate_matrix {r d : ℕ} (randn : Matrix (Fin r) (Fin d) ℚ) (mode : String) :
    Except String (Option (Matrix (Fin r) (Fin d) ℚ)) :=
  if mode = "random" then .ok (some (Matrix.of fun i j => randn i j / (d : ℚ)))
  else if mode = "identity" then .ok none
  else .error "ValueError: No matrix mode"

/-- Embedding of `SubspaceGD.subspace_first_order_oracle` (descent_method.py
    lines 138-145).  The source first reads `Mk.shape[0]`; when `Mk` is the
    Python value `None` (identity mode) this raises an AttributeError.
    Otherwise the backward pass of `d ↦ f(x + Mk.T@d)` at `d = 0` yields the
    projected gradient `Mk @ gradf(x)` (chain rule through the external
    autodiff oracle `gradf`). -/
def subspace_first_order_oracle {n r : ℕ} (gradf : (Fin n → ℚ) → Fin n → ℚ)
    (x : Fin n → ℚ) (Mk : Option (Matrix (Fin r) (Fin n) ℚ)) : Except String (Fin r → ℚ) :=
  match Mk with
  | none => .error "AttributeError: NoneType has no attribute shape"
  | some M => .ok (M.mulVec (gradf x))

/-- Embedding of `SubspaceGD.__iter_per__` (descent_method.py lines
    147-155): generate `Mk`, compute the projected gradient, direction
    `-Mk.T @ projected_grad` (which also dereferences `Mk`), and update
    `xk + lr * d`. -/
def subspaceGDIterPer {n r : ℕ} (randn : Matrix (Fin r) (Fin n) ℚ)
    (gradf : (Fin n → ℚ) → Fin n → ℚ) (lr : ℚ) (mode : String) (xk : Fin n → ℚ) :
    Except String (Fin n → ℚ) := do
  let MkO ← generate_matrix randn mode
  let pg ← subspace_first_order_oracle gradf xk MkO
  match MkO with
  | none => .error "AttributeError: NoneType has no attribute shape"
  | some M => pure (xk + lr • (-(M.transpose.mulVec pg)))

/-! ### Primal-Dual Interior-Point Method
    (constrained_descent_method.py, class PrimalDualInteriorPointMethod) -/

/-- Embedding of `PrimalDualInteriorPointMethod.get_r_dual`
    (constrained_descent_method.py lines 211-212):
    `grad + constraints_grads.T @ l`. -/
def get_r_dual (l grad : List ℚ) (cgrads : List (List ℚ)) : List ℚ :=
  vaddL grad (matVecL cgrads.transpose l)

/-- Embedding of `PrimalDualInteriorPointMethod.get_r_cent`
    (constrained_descent_method.py lines 214-215):
    `-diag(l) @ constraints_values - 1/t`, elementwise `-l_i*c_i - 1/t`. -/
def get_r_cent (l : List ℚ) (t : ℚ) (cvals : List ℚ) : List ℚ :=
  List.zipWith (fun li ci => -(li * ci) - 1 / t) l cvals

/-- Embedding of `PrimalDualInteriorPointMethod.get_r_t`
    (constrained_descent_method.py lines 217-221): concatenation of the dual
    and centrality residuals. -/
def get_r_t (l : List ℚ) (t : ℚ) (grad cvals : List ℚ) (cgrads : List (List ℚ)) : List ℚ :=
  get_r_dual l grad cgrads ++ get_r_cent l t cvals

/-- Exact embedding of the comparison `norm v <= c * norm w` used on line
    260: squares are compared when the scale is non-negative; a negative
    scale can only dominate a norm when both norms vanish. -/
def normLEscaled (v : List ℚ) (c : ℚ) (w : List ℚ) : Bool :=
  if 0 ≤ c then decide (dotL v v ≤ c ^ 2 * dotL w w)
  else decide (dotL v v = 0 ∧ dotL w w = 0)

/-- Minimum of a list (torch.min of a nonempty tensor; the source only
    reaches this with a nonempty mask). -/
def listMinQ : List ℚ → ℚ
  | [] => 0
  | a :: as => as.foldl min a

/-- The `while True` loop of `PrimalDualInteriorPointMethod.__step_size__`
    (constrained_descent_method.py lines 249-262): shrink `s` by `beta`
    while the candidate point is infeasible; once feasible, test the
    residual-norm decrease, and on failure multiply `s` once by the
    instance attribute `self.beta` (which is never assigned anywhere in the
    class: `self_beta = none` raises AttributeError) and break — the loop
    does NOT recheck after that shrink.  The fuel bounds the infeasibility
    retries, which the source does not bound. -/
def pdipmLoop (conVal : List ℚ → List ℚ) (conGrad : List ℚ → List (List ℚ))
    (gradf : List ℚ → List ℚ) (xk lk dx dl rt : List ℚ) (t beta alpha : ℚ)
    (self_beta : Option ℚ) : ℕ → ℚ → Except String ℚ
  | 0, _ => .error "while True: fuel exhausted"
  | fuel + 1, s =>
    let x := vaddL xk (smulL s dx)
    let l := vaddL lk (smulL s dl)
    let cv := conVal x
    if cv.all (fun c => decide (c ≤ 0)) then
      let cg := conGrad x
      let g := gradf x
      let rtz := get_r_t l t g cv cg
      if normLEscaled rtz (1 - alpha * s) rt then .ok s
      else
        match self_beta with
        | none => .error "AttributeError: beta"
        | some b => .ok (s * b)
    else pdipmLoop conVal conGrad gradf xk lk dx dl rt t beta alpha self_beta fuel (s * beta)

/-- Embedding of `PrimalDualInteriorPointMethod.__step_size__`
    (constrained_descent_method.py lines 239-263).  The body first reads
    `params["beta"]` and `params["alpha"]`; the class declares
    `params_key = ["mu","eps","eps_feas"]`, so a parameter dictionary that
    passed `__check_params__` holds neither key and the lookup raises
    KeyError.  Then `s_max` is 1 when all of `delta_l` is non-negative and
    otherwise `min(1, min(-lk[dl<0]/dl[dl<0]))` (the source spells this
    `torch.min([1, ...])`), `s` starts at `0.99*s_max`, and the backtracking
    loop runs. -/
def pdipmStepSize (conVal : List ℚ → List ℚ) (conGrad : List ℚ → List (List ℚ))
    (gradf : List ℚ → List ℚ) (xk lk dx dl rt : List ℚ) (t : ℚ)
    (ps : String → Option ℚ) (self_beta : Option ℚ) (fuel : ℕ) : Except String ℚ :=
  match ps "beta" with
  | none => .error "KeyError: beta"
  | some beta =>
    match ps "alpha" with
    | none => .error "KeyError: alpha"
    | some alpha =>
      let s_max : ℚ :=
        if dl.all (fun a => decide (0 ≤ a)) then 1
        else min 1 (listMinQ (((lk.zip dl).filter (fun p => decide (p.2 < 0))).map
          (fun p => -p.1 / p.2)))
      pdipmLoop conVal conGrad gradf xk lk dx dl rt t beta alpha self_beta fuel
        (99 / 100 * s_max)

/-- A parameter dictionary that passes `__check_params__` for the
    Primal-Dual method: exactly the declared keys mu, eps, eps_feas. -/
def pdipmValidatedParams : String → Option ℚ := fun k =>
  if k = "mu" then some 10
  else if k = "eps" then some (1 / 100)
  else if k = "eps_feas" then some (1 / 100)
  else none

/-! ### Helper lemmas -/

/-- The embedded `0 & log_interval` agrees with the bitwise and operator. -/
theorem zeroAndLog_eq_land (L : ℤ) : zeroAndLog L = Int.land 0 L := by
  cases L with
  | ofNat n => simp [Int.land, zeroAndLog]
  | negSucc n => simp [Int.land, zeroAndLog, Nat.ldiff, Nat.bitwise_zero_left]

/-- Adding any extra key breaks the length equality, so validation fails. -/
theorem checkParams_extra (K : List String) (e : String) :
    checkParams K (K ++ [e]) = false := by
  have h : (K.length == (K ++ [e]).length) = false := by
    simp [List.length_append]
  simp [checkParams, h]

/-- Removing a present key breaks the length equality, so validation fails. -/
theorem checkParams_missing (K : List String) (k : String) (hk : k ∈ K) :
    checkParams K (K.erase k) = false := by
  have hpos : 0 < K.length := List.length_pos_of_mem hk
  have h : (K.length == (K.erase k).length) = false := by
    rw [List.length_erase_of_mem hk]
    simp only [beq_eq_false_iff_ne, ne_eq]
    omega
  simp [checkParams, h]

/-- A run whose parameter set fails validation errors out right after
    initialization, before the iteration loop. -/
theorem runSolver_invalid {α : Type} (K ps : List String)
    (iterPer : SolverState α → SolverState α) (f : α → ℚ) (x0 : α) (iteration : ℕ)
    (clock : ℕ → ℚ) (logI : ℤ) (h : checkParams K ps = false) :
    runSolver K iterPer f x0 iteration ps clock logI = .error (runInit f x0 iteration) := by
  simp [runSolver, h]

/-- Claim C1: for every algorithm variant, `run` with a parameter mapping
    whose key set is not exactly the declared key set fails before the
    iteration loop starts; one extra unrecognized key is rejected, one
    missing required key is rejected, and the exact declared key set passes
    validation. -/
theorem C1_exact_param_key_validation :
    ∀ K ∈ allVariantParamsKeys,
      (∀ e : String, e ∉ K → checkParams K (K ++ [e]) = false) ∧
      (∀ k ∈ K, checkParams K (K.erase k) = false) ∧
      checkParams K K = true ∧
      (∀ (f : ℚ → ℚ) (x0 : ℚ) (iteration : ℕ) (iterPer : SolverState ℚ → SolverState ℚ)
          (clock : ℕ → ℚ) (logI : ℤ) (ps : List String),
        checkParams K ps = false →
        runSolver K iterPer f x0 iteration ps clock logI = .error (runInit f x0 iteration)) := by
  intro K hK
  refine ⟨fun e _ => checkParams_extra K e, fun k hk => checkParams_missing K k hk, ?_,
    fun f x0 it ip ck lI ps h => runSolver_invalid K ps ip f x0 it ck lI h⟩
  fin_cases hK <;> decide

/-- Witness for C1 at the GradientDescent key list. -/
theorem C1_exact_param_key_validation_witness :
    checkParams paramsKeyGD (paramsKeyGD ++ ["momentum"]) = false ∧
    checkParams paramsKeyGD (paramsKeyGD.erase "lr") = false ∧
    checkParams paramsKeyGD paramsKeyGD = true ∧
    runSolver paramsKeyGD id (fun x : ℚ => x * x) 3 2 [] (fun _ => 0) (-1)
      = .error (runInit (fun x : ℚ => x * x) 3 2) := by
  have h := C1_exact_param_key_validation paramsKeyGD (by decide)
  exact ⟨h.1 "momentum" (by decide), h.2.1 "lr" (by decide), h.2.2.1,
    h.2.2.2 _ 3 2 id (fun _ => 0) (-1) [] (by decide)⟩

/-- Claim C10: when `run` is invoked with a parameter set that fails
    validation, the solver state has already been initialized when the error
    is raised: `xk` holds the initial point, both metric buffers have length
    `iteration+1`, and slot 0 of the objective buffer holds the objective
    value at the initial point (the one oracle call made by
    `__run_init__`). -/
theorem C10_init_precedes_validation :
    ∀ {α : Type} (f : α → ℚ) (x0 : α) (iteration : ℕ) (keys ps : List String)
      (iterPer : SolverState α → SolverState α) (clock : ℕ → ℚ) (logI : ℤ),
      checkParams keys ps = false →
      runSolver keys iterPer f x0 iteration ps clock logI = .error (runInit f x0 iteration) ∧
      (runInit f x0 iteration).xk = x0 ∧
      (runInit f x0 iteration).funcValues.length = iteration + 1 ∧
      (runInit f x0 iteration).times.length = iteration + 1 ∧
      (runInit f x0 iteration).funcValues.head? = some (f x0) := by
  intro α f x0 iteration keys ps iterPer clock logI h
  refine ⟨runSolver_invalid keys ps iterPer f x0 iteration clock logI h, rfl, ?_, ?_, ?_⟩
  · simp [runInit]
  · simp [runInit]
  · simp [runInit, List.replicate_succ]

/-- Witness for C10: GradientDescent keys with the `backward` key missing. -/
theorem C10_init_precedes_validation_witness :
    runSolver paramsKeyGD id (fun x : ℚ => x * x) 3 2 ["lr"] (fun _ => 0) (-1)
      = .error (runInit (fun x : ℚ => x * x) 3 2) ∧
    (runInit (fun x : ℚ => x * x) 3 2).xk = 3 ∧
    (runInit (fun x : ℚ => x * x) 3 2).funcValues.length = 2 + 1 ∧
    (runInit (fun x : ℚ => x * x) 3 2).times.length = 2 + 1 ∧
    (runInit (fun x : ℚ => x * x) 3 2).funcValues.head? = some ((fun x : ℚ => x * x) 3) :=
  C10_init_precedes_validation (fun x : ℚ => x * x) 3 2 paramsKeyGD ["lr"] id
    (fun _ => 0) (-1) (by decide)

/-- Claim C7: the sentinel `log_interval = -1` does NOT disable logging.  In
    Python, `&` binds tighter than `==`/`!=`, so the guard
    `(i+1)%log_interval == 0 & log_interval != -1` is the chained comparison
    `((i+1)%log_interval == 0) and (0 != -1)`, and `n % -1 == 0` for every
    `n`: with the sentinel the run logs at EVERY iteration (here a 3-iteration
    run logs at 1, 2 and 3), while a configured positive interval logs
    exactly at its multiples.  The claim says the sentinel logs never. -/
theorem C7_sentinel_logs_every_iteration :
    loggedIters paramsKeyGD paramsKeyGD id (fun _ : ℚ => 0) 0 3 (fun _ => 0) (-1)
        = [1, 2, 3] ∧
    loggedIters paramsKeyGD paramsKeyGD id (fun _ : ℚ => 0) 0 4 (fun _ => 0) 2
        = [2, 4] ∧
    logCond 0 (-1) = true := by
  refine ⟨by decide, by decide, by decide⟩

/-- Claim C4: `PrimalDualInteriorPointMethod.__step_size__` cannot return at
    all under a validated parameter set: the declared key set is exactly
    mu/eps/eps_feas (first conjunct), and the body begins by reading
    `params["beta"]`, which raises KeyError (second conjunct, evaluated at a
    concrete state).  No scale satisfying the two backtracking conditions is
    ever produced. -/
theorem C4_step_size_raises_key_error :
    checkParams paramsKeyPrimalDual ["mu", "eps", "eps_feas"] = true ∧
    pdipmStepSize (fun _ => [0]) (fun _ => [[0]]) (fun _ => [0]) [0] [1] [0] [0] [0] 1
        pdipmValidatedParams none 5 = .error "KeyError: beta" := by
  exact ⟨by decide, rfl⟩

/-- Claim C9: mode "identity" does not use the full-space oracle — it
    crashes.  `generate_matrix` returns the Python value None, and
    `subspace_first_order_oracle` immediately dereferences `Mk.shape`,
    raising AttributeError before any update (first conjunct, evaluated at a
    concrete 2-dimensional state).  Mode "random" indeed produces the
    externally drawn `(reduced_dim, dim)` normal matrix scaled by `1/dim`
    (second conjunct, with reduced_dim = 1, dim = 2). -/
theorem C9_identity_mode_crashes :
    subspaceGDIterPer (!![1, 2] : Matrix (Fin 1) (Fin 2) ℚ) gradIdent 1 "identity" ![1, 1]
        = .error "AttributeError: NoneType has no attribute shape" ∧
    generate_matrix (!![1, 2] : Matrix (Fin 1) (Fin 2) ℚ) "random"
        = .ok (some (Matrix.of fun i j =>
            (!![1, 2] : Matrix (Fin 1) (Fin 2) ℚ) i j / ((2 : ℕ) : ℚ))) := by
  exact ⟨rfl, rfl⟩

/-- Claim C2 counterexample: at the one-active-constraint input `G = [[1]]`,
    `grad = [2]` (so `G` is non-empty), no multiplier vector can reconcile
    the claim with the code: the claim demands `(G*G.T)l = G@grad` and
    direction `-grad - G.T@l` (forcing `l = [2]` and direction `[-4]`), while
    the source takes the `len(Gk) != 0` branch and returns the plain `-grad
    = [-2]` without touching the multipliers. -/
theorem C2_counterexample :
    ¬ ∃ l : Fin 1 → ℚ,
      ((!![1] : Matrix (Fin 1) (Fin 1) ℚ) * (!![1] : Matrix (Fin 1) (Fin 1) ℚ).transpose).mulVec l
          = (!![1] : Matrix (Fin 1) (Fin 1) ℚ).mulVec ![2] ∧
      (gpmDirection solveTrivial ![2] !![1]).1
          = -![2] - (!![1] : Matrix (Fin 1) (Fin 1) ℚ).transpose.mulVec l := by
  rintro ⟨l, h1, h2⟩
  have hdir : (gpmDirection solveTrivial ![2] !![1]).1 = -![2] := by
    simp [gpmDirection]
  rw [hdir] at h2
  have e1 := congrFun h1 0
  have e2 := congrFun h2 0
  simp [Matrix.mulVec, Matrix.dotProduct, Fin.sum_univ_one, Matrix.mul_apply] at e1 e2
  rw [e1] at e2
  norm_num at e2

/-- Claim C2 amended: the branch of `__direction__` is inverted relative to
    the claim.  For every solver, gradient and active-gradient matrix, the
    returned direction is the plain `-grad` in BOTH branches (when `G` is
    empty the multiplier correction `G.T @ lk` is an empty sum), and the
    multiplier solve `lk = -solve(G*G.T, G@grad)` runs exactly when `G` is
    empty, leaving `lk` untouched when active constraints exist. -/
theorem C2_direction_actual :
    ∀ (m n : ℕ) (solveLin : Matrix (Fin m) (Fin m) ℚ → (Fin m → ℚ) → Fin m → ℚ)
      (grad : Fin n → ℚ) (Gk : Matrix (Fin m) (Fin n) ℚ),
      (gpmDirection solveLin grad Gk).1 = -grad ∧
      (gpmDirection solveLin grad Gk).2 =
        (if m = 0 then some (-(solveLin (Gk * Gk.transpose) (Gk.mulVec grad))) else none) := by
  intro m n solveLin grad Gk
  by_cases hm : m = 0
  · subst hm
    refine ⟨?_, by simp [gpmDirection]⟩
    funext i
    simp [gpmDirection, Matrix.mulVec, Matrix.dotProduct]
  · simp [gpmDirection, hm]

/-- Claim C6 counterexample: with the momentum coefficient held fixed at 0,
    `lambda_{k+1} = (1+sqrt(1))/2 = 1` and `gamma_k = (1-0)/1 = 1`, so the
    new iterate is the OLD auxiliary point `yk`, not the gradient step.
    Concretely for `f(x) = x^2/2` (gradient oracle the identity), `x0 = 1`,
    `lr = 1/2`: the first AGD iterate stays 1 while the Gradient Descent
    iterate is 1/2. -/
theorem C6_counterexample :
    (agdStepFixed sqOne gradIdent (1/2) 0 ⟨![1], ![1], 0⟩).xk 0 = 1 ∧
    gdStep gradIdent (1/2) ![1] 0 = 1/2 ∧ (1 : ℚ) ≠ 1/2 := by
  refine ⟨?_, ?_, by norm_num⟩
  · simp [agdStepFixed, agdIterPer, sqOne, gradIdent, Pi.add_apply, Pi.smul_apply,
      Pi.sub_apply, smul_eq_mul]
  · simp [gdStep, gradIdent, Pi.sub_apply, Pi.smul_apply, smul_eq_mul]
    norm_num

/-- One step of AGD with the momentum coefficient forced to 1 is exactly the
    Gradient Descent update (gamma_k = (1-1)/lambda_{k+1} = 0 kills the
    interpolation with `yk`). -/
theorem agdStepFixed_one_xk {n : ℕ} (sq : ℚ → ℚ) (gradf : (Fin n → ℚ) → Fin n → ℚ)
    (lr : ℚ) (s : AGDState n) :
    (agdStepFixed sq gradf lr 1 s).xk = gdStep gradf lr s.xk := by
  simp [agdStepFixed, agdIterPer, gdStep, sub_self, zero_div]

/-- Claim C6 amended: Accelerated Gradient Descent reduces exactly to
    Gradient Descent when the momentum coefficient `lambda_k` is held fixed
    at 1 (not 0): for every power oracle, gradient oracle, learning rate,
    start state and iteration count, the iterate sequences coincide. -/
theorem C6_lambda_one_reduces_to_gd :
    ∀ (n : ℕ) (sq : ℚ → ℚ) (gradf : (Fin n → ℚ) → Fin n → ℚ) (lr : ℚ)
      (s : AGDState n) (k : ℕ),
      ((agdStepFixed sq gradf lr 1)^[k] s).xk = (gdStep gradf lr)^[k] s.xk := by
  intro n sq gradf lr s k
  induction k generalizing s with
  | zero => rfl
  | succ k ih =>
    rw [Function.iterate_succ_apply, Function.iterate_succ_apply, ih,
      agdStepFixed_one_xk]

/-! ### Helper lemmas for the backtracking searches -/

/-- Singleton evaluation of the 1-norm objective. -/
@[simp] theorem fAbs_single (a : ℚ) : fAbs [a] = |a| := by simp [fAbs]

/-- Singleton evaluation of the inner product. -/
@[simp] theorem dotL_single (a b : ℚ) : dotL [a] [b] = a * b := by simp [dotL]

/-- Singleton evaluation of the difference. -/
@[simp] theorem vsubL_single (a b : ℚ) : vsubL [a] [b] = [a - b] := by simp [vsubL]

/-- Singleton evaluation of the scalar multiple. -/
@[simp] theorem smulL_single (c a : ℚ) : smulL c [a] = [c * a] := by simp [smulL]

/-- Unfolding of the plain backtracking entry point. -/
theorem backtracking_with_prox_def (f : List ℚ → ℚ) (prox : List ℚ → ℚ → List ℚ)
    (x grad : List ℚ) (beta : ℚ) (max_iter : ℕ) (loss : Option ℚ) :
    backtracking_with_prox f prox x grad beta max_iter loss =
      btLoop f prox x grad beta (loss.getD (f x)) max_iter 1
        (prox (vsubL x (smulL 1 grad)) 1) := rfl

/-- Unfolding of the accelerated backtracking entry point. -/
theorem accBacktracking_def (f : List ℚ → ℚ) (prox : List ℚ → ℚ → List ℚ)
    (x v grad_v : List ℚ) (beta : ℚ) (max_iter : ℚ) (loss_v : Option ℚ)
    (tk : ℚ) (fuel : ℕ) :
    accBacktracking f prox x v grad_v beta max_iter loss_v tk fuel =
      accBtLoop f prox v grad_v beta (loss_v.getD (f v)) fuel tk
        (prox (vsubL v (smulL tk grad_v)) tk) := rfl

/-- The scale returned by the plain shrink loop is the entry scale times
    `beta^k` for some `k` bounded by fuel + 1 (the number of shrink steps
    the loop can take before `max_iter` drops below zero). -/
theorem btLoop_pow (f : List ℚ → ℚ) (prox : List ℚ → ℚ → List ℚ) (x grad : List ℚ)
    (beta loss : ℚ) :
    ∀ (fuel : ℕ) (t : ℚ) (p : List ℚ),
      ∃ k ≤ fuel + 1, (btLoop f prox x grad beta loss fuel t p).2 = t * beta ^ k := by
  intro fuel
  induction fuel with
  | zero =>
    intro t p
    by_cases h : btCond f x grad loss t p = true
    · exact ⟨1, le_refl 1, by simp [btLoop, h, pow_one]⟩
    · rw [Bool.not_eq_true] at h
      exact ⟨0, by omega, by simp [btLoop, h]⟩
  | succ fuel ih =>
    intro t p
    by_cases h : btCond f x grad loss t p = true
    · obtain ⟨k, hk, he⟩ :=
        ih (t * beta) (prox (vsubL x (smulL (t * beta) grad)) (t * beta))
      refine ⟨k + 1, by omega, ?_⟩
      have hstep : btLoop f prox x grad beta loss (fuel + 1) t p =
          btLoop f prox x grad beta loss fuel (t * beta)
            (prox (vsubL x (smulL (t * beta) grad)) (t * beta)) := by
        simp [btLoop, h]
      rw [hstep, he]; ring
    · rw [Bool.not_eq_true] at h
      exact ⟨0, by omega, by simp [btLoop, h]⟩

/-- The plain shrink loop keeps the scale positive, and on return either the
    guard is false at the returned pair (a genuine exit) or the fuel path
    was taken and the returned scale is the entry scale shrunk fuel+1
    times. -/
theorem btLoop_exit (f : List ℚ → ℚ) (prox : List ℚ → ℚ → List ℚ) (x grad : List ℚ)
    (beta loss : ℚ) (hb : 0 < beta) :
    ∀ (fuel : ℕ) (t : ℚ) (p : List ℚ), 0 < t →
      0 < (btLoop f prox x grad beta loss fuel t p).2 ∧
      (btCond f x grad loss (btLoop f prox x grad beta loss fuel t p).2
          (btLoop f prox x grad beta loss fuel t p).1 = false ∨
        (btLoop f prox x grad beta loss fuel t p).2 = t * beta ^ (fuel + 1)) := by
  intro fuel
  induction fuel with
  | zero =>
    intro t p ht
    by_cases h : btCond f x grad loss t p = true
    · have hv : (btLoop f prox x grad beta loss 0 t p).2 = t * beta := by simp [btLoop, h]
      exact ⟨by rw [hv]; exact mul_pos ht hb, Or.inr (by rw [hv, pow_one])⟩
    · rw [Bool.not_eq_true] at h
      have hv : btLoop f prox x grad beta loss 0 t p = (p, t) := by simp [btLoop, h]
      exact ⟨by rw [hv]; exact ht, Or.inl (by rw [hv]; exact h)⟩
  | succ fuel ih =>
    intro t p ht
    by_cases h : btCond f x grad loss t p = true
    · have hstep : btLoop f prox x grad beta loss (fuel + 1) t p =
          btLoop f prox x grad beta loss fuel (t * beta)
            (prox (vsubL x (smulL (t * beta) grad)) (t * beta)) := by
        simp [btLoop, h]
      obtain ⟨hpos, hor⟩ := ih (t * beta)
        (prox (vsubL x (smulL (t * beta) grad)) (t * beta)) (mul_pos ht hb)
      rw [hstep]
      refine ⟨hpos, ?_⟩
      rcases hor with hc | hbud
      · exact Or.inl hc
      · exact Or.inr (by rw [hbud]; ring)
    · rw [Bool.not_eq_true] at h
      have hv : btLoop f prox x grad beta loss (fuel + 1) t p = (p, t) := by simp [btLoop, h]
      exact ⟨by rw [hv]; exact ht, Or.inl (by rw [hv]; exact h)⟩

/-- A false plain guard at a positive scale is exactly the claimed
    sufficient-decrease inequality (divide the guard by `t`). -/
theorem btCond_false_ineq (f : List ℚ → ℚ) (x grad : List ℚ) (loss t : ℚ) (p : List ℚ)
    (ht : 0 < t) (h : btCond f x grad loss t p = false) :
    f p ≤ loss - dotL grad (vsubL x p) + dotL (vsubL x p) (vsubL x p) / (2 * t) := by
  have h2 : t * f p ≤
      t * loss - t * dotL grad (vsubL x p) + 1 / 2 * dotL (vsubL x p) (vsubL x p) := by
    have hn : ¬ (t * f p >
        t * loss - t * dotL grad (vsubL x p) + 1 / 2 * dotL (vsubL x p) (vsubL x p)) := by
      simpa [btCond] using h
    exact not_lt.mp hn
  have h2t : (0 : ℚ) < 2 * t := by linarith
  have key : (f p - (loss - dotL grad (vsubL x p))) * (2 * t)
      ≤ dotL (vsubL x p) (vsubL x p) := by nlinarith [h2]
  have key2 : f p - (loss - dotL grad (vsubL x p))
      ≤ dotL (vsubL x p) (vsubL x p) / (2 * t) := (le_div_iff₀ h2t).mpr key
  linarith

/-- A false accelerated guard at a positive scale is the claimed
    sufficient-decrease inequality at the extrapolated point. -/
theorem accCond_false_ineq (f : List ℚ → ℚ) (v gv : List ℚ) (lv t : ℚ) (p : List ℚ)
    (ht : 0 < t) (h : accCond f v gv lv t p = false) :
    f p ≤ lv + dotL gv (vsubL p v) + dotL (vsubL p v) (vsubL p v) / (2 * t) := by
  have h2 : t * f p ≤
      t * lv + t * dotL gv (vsubL p v) + 1 / 2 * dotL (vsubL p v) (vsubL p v) := by
    have hn : ¬ (t * f p >
        t * lv + t * dotL gv (vsubL p v) + 1 / 2 * dotL (vsubL p v) (vsubL p v)) := by
      simpa [accCond] using h
    exact not_lt.mp hn
  have h2t : (0 : ℚ) < 2 * t := by linarith
  have key : (f p - (lv + dotL gv (vsubL p v))) * (2 * t)
      ≤ dotL (vsubL p v) (vsubL p v) := by nlinarith [h2]
  have key2 : f p - (lv + dotL gv (vsubL p v))
      ≤ dotL (vsubL p v) (vsubL p v) / (2 * t) := (le_div_iff₀ h2t).mpr key
  linarith

/-- Whenever the accelerated shrink loop returns a pair, the guard is false
    at that pair; the returned scale stays positive for positive inputs and
    never exceeds the entry scale when `0 ≤ beta ≤ 1`. -/
theorem accBtLoop_props (f : List ℚ → ℚ) (prox : List ℚ → ℚ → List ℚ) (v gv : List ℚ)
    (beta lv : ℚ) :
    ∀ (fuel : ℕ) (tk : ℚ) (p : List ℚ) (r : List ℚ × ℚ),
      accBtLoop f prox v gv beta lv fuel tk p = some r →
      accCond f v gv lv r.2 r.1 = false ∧
      (0 < beta → 0 < tk → 0 < r.2) ∧
      (0 ≤ beta → beta ≤ 1 → 0 ≤ tk → r.2 ≤ tk ∧ 0 ≤ r.2) := by
  intro fuel
  induction fuel with
  | zero =>
    intro tk p r h
    by_cases hc : accCond f v gv lv tk p = true
    · simp [accBtLoop, hc] at h
    · rw [Bool.not_eq_true] at hc
      have hr : (p, tk) = r := by
        simpa [accBtLoop, hc] using h
      obtain rfl := hr
      exact ⟨hc, fun _ htk => htk, fun _ _ htk => ⟨le_refl _, htk⟩⟩
  | succ fuel ih =>
    intro tk p r h
    by_cases hc : accCond f v gv lv tk p = true
    · have h2 : accBtLoop f prox v gv beta lv fuel (tk * beta)
          (prox (vsubL v (smulL (tk * beta) gv)) (tk * beta)) = some r := by
        simpa [accBtLoop, hc] using h
      obtain ⟨h1, hPos, hBound⟩ := ih (tk * beta) _ r h2
      refine ⟨h1, fun hbp htk => hPos hbp (mul_pos htk hbp), fun hb0 hb1 htk => ?_⟩
      obtain ⟨ha, hb2⟩ := hBound hb0 hb1 (mul_nonneg htk hb0)
      exact ⟨le_trans ha (mul_le_of_le_one_right htk hb1), hb2⟩
    · rw [Bool.not_eq_true] at hc
      have hr : (p, tk) = r := by
        simpa [accBtLoop, hc] using h
      obtain rfl := hr
      exact ⟨hc, fun _ htk => htk, fun _ _ htk => ⟨le_refl _, htk⟩⟩

/-- On the adversarial instance `f = 1-norm`, `prox = id`, `x = [0]`,
    `grad = [1]`, `loss = 0`, the plain guard holds at every positive scale:
    the loop shrinks until the break. -/
theorem btCond_abs (t : ℚ) (ht : 0 < t) : btCond fAbs [0] [1] 0 t [-t] = true := by
  simp only [btCond, decide_eq_true_eq, vsubL_single, dotL_single, fAbs_single]
  rw [abs_neg, abs_of_pos ht]
  nlinarith

/-- The same instance makes the accelerated guard hold at every positive
    scale. -/
theorem accCond_abs (t : ℚ) (ht : 0 < t) : accCond fAbs [0] [1] 0 t [-t] = true := by
  simp only [accCond, decide_eq_true_eq, vsubL_single, dotL_single, fAbs_single]
  rw [abs_neg, abs_of_pos ht]
  nlinarith

/-- Exact trace of the plain shrink loop on the adversarial instance: the
    loop burns all its fuel and returns the scale shrunk fuel+1 times with
    the matching last candidate. -/
theorem btLoop_abs :
    ∀ (fuel : ℕ) (t : ℚ), 0 < t →
      btLoop fAbs proxId [0] [1] (1/2) 0 fuel t [-t] =
        ([-(t * (1/2) ^ (fuel + 1))], t * (1/2) ^ (fuel + 1)) := by
  intro fuel
  induction fuel with
  | zero =>
    intro t ht
    have hpx : proxId (vsubL [0] (smulL (t * (1/2)) [1])) (t * (1/2)) = [-(t * (1/2))] := by
      simp [proxId]
    rw [show btLoop fAbs proxId [0] [1] (1/2) 0 0 t [-t] =
        (proxId (vsubL [0] (smulL (t * (1/2)) [1])) (t * (1/2)), t * (1/2)) from by
      simp [btLoop, btCond_abs t ht]]
    rw [hpx, pow_one]
  | succ fuel ih =>
    intro t ht
    have hpx : proxId (vsubL [0] (smulL (t * (1/2)) [1])) (t * (1/2)) = [-(t * (1/2))] := by
      simp [proxId]
    rw [show btLoop fAbs proxId [0] [1] (1/2) 0 (fuel + 1) t [-t] =
        btLoop fAbs proxId [0] [1] (1/2) 0 fuel (t * (1/2))
          (proxId (vsubL [0] (smulL (t * (1/2)) [1])) (t * (1/2))) from by
      simp [btLoop, btCond_abs t ht]]
    rw [hpx, ih (t * (1/2)) (by linarith)]
    have harr : t * (1/2) * (1/2 : ℚ) ^ (fuel + 1) = t * (1/2) ^ (fuel + 1 + 1) := by ring
    rw [harr]

/-- On the adversarial instance the accelerated shrink loop never exits,
    whatever the fuel. -/
theorem accBtLoop_abs_none :
    ∀ (fuel : ℕ) (t : ℚ), 0 < t →
      accBtLoop fAbs proxId [0] [1] (1/2) 0 fuel t [-t] = none := by
  intro fuel
  induction fuel with
  | zero =>
    intro t ht
    simp [accBtLoop, accCond_abs t ht]
  | succ fuel ih =>
    intro t ht
    have hpx : proxId (vsubL [0] (smulL (t * (1/2)) [1])) (t * (1/2)) = [-(t * (1/2))] := by
      simp [proxId]
    rw [show accBtLoop fAbs proxId [0] [1] (1/2) 0 (fuel + 1) t [-t] =
        accBtLoop fAbs proxId [0] [1] (1/2) 0 fuel (t * (1/2))
          (proxId (vsubL [0] (smulL (t * (1/2)) [1])) (t * (1/2))) from by
      simp [accBtLoop, accCond_abs t ht]]
    rw [hpx]
    exact ih (t * (1/2)) (by linarith)

/-- Claim C3 counterexample: a legitimate instance (objective the 1-norm,
    prox the identity = proximal map of g = 0, x = [0], gradient [1],
    beta = 1/2 in (0,1), the default retry budget 10000) on which the plain
    search exhausts its budget: the returned pair has positive t but
    VIOLATES the sufficient-decrease inequality
    `f(prox_x) <= f(x) - grad@(x-prox_x) + norm(x-prox_x)^2/(2t)`. -/
theorem C3_counterexample :
    (0 < (1/2 : ℚ) ∧ (1/2 : ℚ) < 1) ∧
    ∃ p t, backtracking_with_prox fAbs proxId [0] [1] (1/2) 10000 none = (p, t) ∧ 0 < t ∧
      ¬ (fAbs p ≤ fAbs [0] - dotL [1] (vsubL [0] p)
          + dotL (vsubL [0] p) (vsubL [0] p) / (2 * t)) := by
  have hbt : backtracking_with_prox fAbs proxId [0] [1] (1/2) 10000 none
      = ([-(1 * (1/2 : ℚ) ^ 10001)], 1 * (1/2 : ℚ) ^ 10001) := by
    rw [backtracking_with_prox_def]
    have h0 : (none : Option ℚ).getD (fAbs [0]) = 0 := by simp [fAbs]
    have hp : proxId (vsubL [0] (smulL 1 [1])) 1 = [-(1 : ℚ)] := by
      simp [proxId]
    rw [h0, hp]
    exact btLoop_abs 10000 1 one_pos
  have htpos : 0 < 1 * (1/2 : ℚ) ^ 10001 := by positivity
  refine ⟨⟨by norm_num, by norm_num⟩,
    [-(1 * (1/2 : ℚ) ^ 10001)], 1 * (1/2 : ℚ) ^ 10001, hbt, htpos, ?_⟩
  set t0 : ℚ := 1 * (1/2 : ℚ) ^ 10001 with ht0def
  have e0 : fAbs [0] = (0 : ℚ) := by simp [fAbs]
  have e1 : fAbs [-t0] = t0 := by rw [fAbs_single, abs_neg, abs_of_pos htpos]
  have e2 : vsubL [0] [-t0] = [t0] := by rw [vsubL_single]; norm_num
  rw [e0, e1, e2, dotL_single, dotL_single, not_le]
  have e3 : t0 * t0 / (2 * t0) = t0 / 2 := by
    field_simp
    ring
  rw [e3]
  linarith

/-- Claim C3 amended: for beta in (0,1), the returned scale is always
    positive, and the sufficient-decrease inequality holds for the returned
    pair EXCEPT possibly when the plain search exhausts its retry budget (in
    which case the returned scale is `beta^(max_iter+1)` and the last
    candidate is kept); the accelerated search, whenever its unbounded loop
    returns at all, always returns a pair satisfying the inequality at the
    extrapolated point `v`. -/
theorem C3_amended_sufficient_decrease :
    ∀ (f : List ℚ → ℚ) (prox : List ℚ → ℚ → List ℚ) (x grad : List ℚ) (beta : ℚ)
      (max_iter : ℕ) (loss : Option ℚ), 0 < beta →
      (0 < (backtracking_with_prox f prox x grad beta max_iter loss).2 ∧
        (f (backtracking_with_prox f prox x grad beta max_iter loss).1 ≤
            loss.getD (f x)
              - dotL grad (vsubL x (backtracking_with_prox f prox x grad beta max_iter loss).1)
              + dotL (vsubL x (backtracking_with_prox f prox x grad beta max_iter loss).1)
                  (vsubL x (backtracking_with_prox f prox x grad beta max_iter loss).1)
                / (2 * (backtracking_with_prox f prox x grad beta max_iter loss).2) ∨
          (backtracking_with_prox f prox x grad beta max_iter loss).2
            = beta ^ (max_iter + 1))) ∧
      (∀ (v grad_v : List ℚ) (mi : ℚ) (lv : Option ℚ) (tk : ℚ) (fuel : ℕ)
          (p : List ℚ) (t : ℚ), 0 < tk →
        accBacktracking f prox x v grad_v beta mi lv tk fuel = some (p, t) →
        0 < t ∧
          f p ≤ lv.getD (f v) + dotL grad_v (vsubL p v)
            + dotL (vsubL p v) (vsubL p v) / (2 * t)) := by
  intro f prox x grad beta max_iter loss hb
  constructor
  · rw [backtracking_with_prox_def]
    obtain ⟨hpos, hor⟩ := btLoop_exit f prox x grad beta (loss.getD (f x)) hb max_iter 1
      (prox (vsubL x (smulL 1 grad)) 1) one_pos
    refine ⟨hpos, ?_⟩
    rcases hor with hc | hbud
    · exact Or.inl (btCond_false_ineq f x grad (loss.getD (f x)) _ _ hpos hc)
    · exact Or.inr (by rw [hbud, one_mul])
  · intro v gv mi lv tk fuel p t htk h
    rw [accBacktracking_def] at h
    obtain ⟨hc, hPos, -⟩ := accBtLoop_props f prox v gv beta (lv.getD (f v)) fuel tk _ (p, t) h
    have ht : 0 < t := hPos hb htk
    exact ⟨ht, accCond_false_ineq f v gv (lv.getD (f v)) t p ht hc⟩

/-- Witness for the amended C3 at a concrete instance (trivial objective,
    identity prox) where both the plain and the accelerated searches succeed
    immediately. -/
theorem C3_amended_sufficient_decrease_witness :
    0 < (backtracking_with_prox fZero proxId [0] [0] (1/2) 3 none).2 ∧
    (0 < (1 : ℚ) ∧
      fZero [0] ≤ (none : Option ℚ).getD (fZero [0]) + dotL [0] (vsubL [0] [0])
        + dotL (vsubL [0] [0]) (vsubL [0] [0]) / (2 * 1)) := by
  have h := C3_amended_sufficient_decrease fZero proxId [0] [0] (1/2) 3 none (by norm_num)
  exact ⟨h.1.1, h.2 [0] [0] 0 none 1 2 [0] 1 one_pos
    (by simp [accBacktracking, accBtLoop, accCond, fZero, proxId, vsubL, smulL, dotL])⟩

/-- Claim C5 counterexample: the accelerated variant ignores its `max_iter`
    argument entirely (the source loop neither decrements it nor breaks), so
    on the adversarial instance of `C3_counterexample` the search is still
    running after 20000 shrink passes even though the budget argument is
    10000: it does not stop after the retry budget. -/
theorem C5_counterexample :
    accBacktracking fAbs proxId [0] [0] [1] (1/2) 10000 none 1 20000 = none ∧
    10000 + 1 < 20000 := by
  refine ⟨?_, by norm_num⟩
  rw [accBacktracking_def]
  have h0 : (none : Option ℚ).getD (fAbs [0]) = 0 := by simp [fAbs]
  have hp : proxId (vsubL [0] (smulL 1 [1])) 1 = [-(1 : ℚ)] := by simp [proxId]
  rw [h0, hp]
  exact accBtLoop_abs_none 20000 1 one_pos

/-- Claim C5 amended: the PLAIN search always terminates, performing at most
    `max_iter + 1` shrink steps (the returned scale is `beta^k` with
    `k ≤ max_iter + 1`) and keeping the last candidate when the budget is
    exhausted; the ACCELERATED search ignores its `max_iter` parameter and
    its loop need not terminate: on the adversarial 1-norm instance it is
    still running after any number of passes. -/
theorem C5_amended_termination :
    (∀ (f : List ℚ → ℚ) (prox : List ℚ → ℚ → List ℚ) (x grad : List ℚ) (beta : ℚ)
        (max_iter : ℕ) (loss : Option ℚ),
      ∃ k ≤ max_iter + 1,
        (backtracking_with_prox f prox x grad beta max_iter loss).2 = beta ^ k) ∧
    (∀ fuel : ℕ, accBacktracking fAbs proxId [0] [0] [1] (1/2) 10000 none 1 fuel = none) := by
  constructor
  · intro f prox x grad beta max_iter loss
    obtain ⟨k, hk, he⟩ := btLoop_pow f prox x grad beta (loss.getD (f x)) max_iter 1
      (prox (vsubL x (smulL 1 grad)) 1)
    exact ⟨k, hk, by rw [backtracking_with_prox_def, he, one_mul]⟩
  · intro fuel
    rw [accBacktracking_def]
    have h0 : (none : Option ℚ).getD (fAbs [0]) = 0 := by simp [fAbs]
    have hp : proxId (vsubL [0] (smulL 1 [1])) 1 = [-(1 : ℚ)] := by simp [proxId]
    rw [h0, hp]
    exact accBtLoop_abs_none fuel 1 one_pos

/-- Claim C8: across one accelerated-proximal iteration the carried-over
    backtracking scale `tk` never increases: whenever `__iter_per__` returns
    a state, its `tk` is at most the incoming `tk` (and stays non-negative),
    because the search starts from the carried-over scale and only ever
    multiplies it by `beta ≤ 1`; neither `__iter_per__` nor `__run_init__`
    resets it upward.  Applied to consecutive iterations this makes the `tk`
    sequence of a whole run monotone non-increasing. -/
theorem C8_tk_monotone :
    ∀ (f : List ℚ → ℚ) (gradf : List ℚ → List ℚ) (prox : List ℚ → ℚ → List ℚ)
      (restart : Bool) (beta eps : ℚ) (fuel : ℕ) (s : APGDState) (t1 : ℚ),
      0 ≤ beta → beta ≤ 1 → 0 ≤ s.tk →
      (apgdIterPer f gradf prox restart beta eps fuel s).map APGDState.tk = some t1 →
      t1 ≤ s.tk ∧ 0 ≤ t1 := by
  intro f gradf prox restart beta eps fuel s t1 hb0 hb1 htk h
  simp only [apgdIterPer] at h
  split at h
  · exact Option.noConfusion h
  · rename_i pr p t heq
    have ht1 : t = t1 := by simpa using h
    rw [accBacktracking_def] at heq
    obtain ⟨-, -, hBound⟩ := accBtLoop_props f prox _ _ beta _ fuel s.tk _ (p, t) heq
    obtain ⟨ha, hnn⟩ := hBound hb0 hb1 htk
    exact ⟨ht1 ▸ ha, ht1 ▸ hnn⟩

/-- Witness for C8 at a concrete state: one iteration from `tk = 1` with
    `beta = 1/2` returns `tk = 1` (the guard rejects no candidate), which is
    no larger than the incoming scale. -/
theorem C8_tk_monotone_witness :
    ((apgdIterPer fZero gradZero proxId false (1/2) 1 5 ⟨1, [0], [0], 1, false⟩).map
        APGDState.tk = some 1) ∧ (1 : ℚ) ≤ 1 ∧ (0 : ℚ) ≤ 1 := by
  have hmap : (apgdIterPer fZero gradZero proxId false (1/2) 1 5 ⟨1, [0], [0], 1, false⟩).map
      APGDState.tk = some 1 := by
    simp [apgdIterPer, accBacktracking, accBtLoop, accCond, checkNormL, fZero, gradZero,
      proxId, vaddL, vsubL, smulL, dotL]
  have h := C8_tk_monotone fZero gradZero proxId false (1/2) 1 5 ⟨1, [0], [0], 1, false⟩ 1
    (by norm_num) (by norm_num) (by norm_num) hmap
  exact ⟨hmap, h.1, h.2⟩

end Spec2Proof
